import Mathlib

/-!
Verification of the task-tracking backend (punnch/todo-app).

The core under verification is the CRUD service layer in
`src/app/crud/crud.py`, the validation schema in
`src/app/schemas/schemas.py`, the ORM model in
`src/app/database/database.py` and the API handlers in
`src/app/api/api.py`.

Shallow embedding choices:
* The relational store is a `Store`: the list of persisted task rows in
  insertion order, together with the surrogate-key counter (`nextId`,
  modelling the serial primary key the database assigns) and a logical
  clock (`clock`, modelling `datetime.now`; it ticks on every insert, so
  creation timestamps of successive inserts are strictly increasing).
* Timestamps are naturals on this logical clock.
* Each CRUD function of `crud.py` becomes a pure function from a `Store`
  to a result paired with the successor `Store`.
* The API handlers of `api.py` wrap the CRUD functions, performing the
  Pydantic body validation first and turning `None` results into the
  404 "Task not found" error, exactly as the FastAPI endpoints do.
-/

set_option maxRecDepth 4000

namespace TodoApp

/-- The `Task` ORM model of `src/app/database/database.py`: columns
`id` (integer primary key), `text` (string, not null), `done`
(boolean, default `False`), `created_at` (datetime, default `now`). -/
structure Task where
  id : Nat
  text : String
  done : Bool
  created_at : Nat
deriving DecidableEq

/-- The relational store: persisted rows in insertion order, the
next value of the serial primary key, and the logical clock giving
`datetime.now` for the next insert. -/
structure Store where
  tasks : List Task
  nextId : Nat
  clock : Nat
deriving DecidableEq

/-- A freshly created database: no rows, serial keys start at 1. -/
def emptyStore : Store := { tasks := [], nextId := 1, clock := 0 }

/-- Validation errors of the Pydantic field constraints
(`string_too_short` / `string_too_long`). -/
inductive ValidationError where
  | tooShort
  | tooLong
deriving DecidableEq

/-- Errors surfaced by the API layer: HTTP 404 with a detail string,
or HTTP 422 from Pydantic body validation. -/
inductive ApiError where
  | notFound (detail : String)
  | validationError (e : ValidationError)
deriving DecidableEq

/-- The Pydantic v2 schema `TaskBase` of `src/app/schemas/schemas.py`:
`text: str = Field(min_length=1, max_length=255, strip_whitespace=True)`.

In Pydantic v2 (the version in use: the module imports `ConfigDict` and
sets `model_config = ConfigDict(from_attributes=True)`), `strip_whitespace`
is not a recognised `Field` argument: extra keyword arguments on `Field`
are deprecated, stored in `json_schema_extra`, and have no effect on
validation.  So the field is validated — and passed through unchanged —
purely by `min_length=1` and `max_length=255` on the raw string. -/
def validateText (text : String) : Except ValidationError String :=
  if text.length < 1 then .error .tooShort
  else if 255 < text.length then .error .tooLong
  else .ok text

/-- Remove surrounding whitespace from a list of characters. -/
def trimChars (l : List Char) : List Char :=
  ((l.dropWhile Char.isWhitespace).reverse.dropWhile Char.isWhitespace).reverse

/-- What §3/§7 of the spec describe: acceptance iff the length after
trimming surrounding whitespace is between 1 and 255.  Stated from the
spec's words only, for comparison with `validateText` above. -/
def specAcceptsText (text : String) : Prop :=
  1 ≤ (trimChars text.data).length ∧ (trimChars text.data).length ≤ 255

instance (text : String) : Decidable (specAcceptsText text) :=
  inferInstanceAs (Decidable (_ ∧ _))

/-- The descending `created_at` ordering used by
`order_by(desc(Task.created_at))` in `get_tasks`. -/
def createdDesc (a b : Task) : Prop := b.created_at ≤ a.created_at

instance : DecidableRel createdDesc :=
  fun a b => inferInstanceAs (Decidable (b.created_at ≤ a.created_at))

instance : IsTotal Task createdDesc :=
  ⟨fun a b => Nat.le_total b.created_at a.created_at⟩

instance : IsTrans Task createdDesc :=
  ⟨fun _ _ _ hab hbc => Nat.le_trans hbc hab⟩

/-- Embeds `crud.get_tasks(db, skip=0, limit=10)`: all rows ordered by
`created_at` descending, then `offset(skip)` and `limit(limit)`. -/
def get_tasks (s : Store) (skip : Nat := 0) (limit : Nat := 10) : List Task :=
  (((s.tasks.insertionSort createdDesc).drop skip).take limit)

/-- Embeds `crud.get_task(db, task_id)`: first row whose primary key matches,
or `None`. -/
def get_task (s : Store) (task_id : Nat) : Option Task :=
  s.tasks.find? (fun t => t.id == task_id)

/-- Embeds `crud.create_task(db, task)`: insert a row whose `text` is the
(already validated) request text; the store assigns `id` (serial key),
`done = False` and `created_at = now`; the committed row is returned. -/
def create_task (s : Store) (text : String) : Task × Store :=
  let t : Task := { id := s.nextId, text := text, done := false, created_at := s.clock }
  (t, { tasks := s.tasks ++ [t], nextId := s.nextId + 1, clock := s.clock + 1 })

/-- Embeds `crud.delete_task(db, task_id)`: fetch the row by primary key; when
present delete that row and commit; the fetched row (or `None`) is
returned. -/
def delete_task (s : Store) (task_id : Nat) : Option Task × Store :=
  match get_task s task_id with
  | none => (none, s)
  | some t => (some t, { s with tasks := s.tasks.eraseP (fun u => u.id == task_id) })

/-- Embeds `crud.delete_completed_tasks(db)`: select every row with
`done == True`, delete each, commit once, and return how many rows were
deleted. -/
def delete_completed_tasks (s : Store) : Nat × Store :=
  let tasks_to_delete := s.tasks.filter (fun t => t.done)
  (tasks_to_delete.length, { s with tasks := s.tasks.filter (fun t => !t.done) })

/-- Replace the first list element satisfying `p` (the object
`get_task` returned, mutated in place) by `t2`. -/
def replaceFirst (p : Task → Bool) (t2 : Task) : List Task → List Task
  | [] => []
  | u :: us => if p u then t2 :: us else u :: replaceFirst p t2 us

/-- Embeds `crud.update_task_status(db, task_id, done)`: fetch the row by
primary key; when present set its `done` column, commit, and return the
refreshed row; otherwise return `None`. -/
def update_task_status (s : Store) (task_id : Nat) (done : Bool) : Option Task × Store :=
  match get_task s task_id with
  | none => (none, s)
  | some t =>
      let t2 : Task := { t with done := done }
      (some t2, { s with tasks := replaceFirst (fun u => u.id == task_id) t2 s.tasks })

/-- Embeds `crud.update_task_text(db, task_id, new_text)`: fetch the row by
primary key; when present set its `text` column, commit, and return the
refreshed row; otherwise return `None`. -/
def update_task_text (s : Store) (task_id : Nat) (new_text : String) : Option Task × Store :=
  match get_task s task_id with
  | none => (none, s)
  | some t =>
      let t2 : Task := { t with text := new_text }
      (some t2, { s with tasks := replaceFirst (fun u => u.id == task_id) t2 s.tasks })

/-- Embeds `GET /tasks/` (`read_tasks` in `api.py`): query defaults
`skip = 0`, `limit = 10`, then `crud.get_tasks`. -/
def apiReadTasks (s : Store) (skip : Nat := 0) (limit : Nat := 10) :
    Except ApiError (List Task) × Store :=
  (.ok (get_tasks s skip limit), s)

/-- Embeds `GET /tasks/{task_id}` (`read_task` in `api.py`): `crud.get_task`,
raising 404 "Task not found" when it returns `None`. -/
def apiReadTask (s : Store) (task_id : Nat) : Except ApiError Task × Store :=
  match get_task s task_id with
  | none => (.error (.notFound "Task not found"), s)
  | some t => (.ok t, s)

/-- Embeds `POST /tasks/` (`create_task` in `api.py`): FastAPI first validates
the body against `TaskCreate` (422 on failure, before the handler
runs), then calls `crud.create_task`. -/
def apiCreateTask (s : Store) (text : String) : Except ApiError Task × Store :=
  match validateText text with
  | .error e => (.error (.validationError e), s)
  | .ok t => let r := create_task s t; (.ok r.1, r.2)

/-- Embeds `PUT /tasks/{task_id}/status` (`update_task_status_endpoint` in
`api.py`): `crud.update_task_status`, raising 404 "Task not found" on
`None`. -/
def apiUpdateTaskStatus (s : Store) (task_id : Nat) (done : Bool) :
    Except ApiError Task × Store :=
  match update_task_status s task_id done with
  | (none, s2) => (.error (.notFound "Task not found"), s2)
  | (some t, s2) => (.ok t, s2)

/-- Embeds `PUT /tasks/{task_id}/text` (`update_task_text_endpoint` in
`api.py`): FastAPI validates the body against `TaskUpdateText` (422 on
failure, before the handler runs), then `crud.update_task_text`,
raising 404 "Task not found" on `None`. -/
def apiUpdateTaskText (s : Store) (task_id : Nat) (text : String) :
    Except ApiError Task × Store :=
  match validateText text with
  | .error e => (.error (.validationError e), s)
  | .ok t =>
      match update_task_text s task_id t with
      | (none, s2) => (.error (.notFound "Task not found"), s2)
      | (some u, s2) => (.ok u, s2)

/-- Embeds `DELETE /tasks/{task_id}` (`delete_single_task_endpoint` in
`api.py`): `crud.delete_task`, raising 404 "Task not found" on
`None`. -/
def apiDeleteTask (s : Store) (task_id : Nat) : Except ApiError Task × Store :=
  match delete_task s task_id with
  | (none, s2) => (.error (.notFound "Task not found"), s2)
  | (some t, s2) => (.ok t, s2)

/-- Embeds `DELETE /tasks/completed` (`delete_completed_tasks_endpoint` in
`api.py`): `crud.delete_completed_tasks`; always succeeds with the
count of removed rows. -/
def apiDeleteCompletedTasks (s : Store) : Except ApiError Nat × Store :=
  let r := delete_completed_tasks s
  (.ok r.1, r.2)

/-- Well-formedness of a store, established at creation time and
preserved by every operation: each row's primary key is below the
serial counter, each row's `created_at` is below the clock, and rows
appear in insertion order with strictly increasing `created_at`. -/
def Store.Wf (s : Store) : Prop :=
  (∀ t ∈ s.tasks, t.id < s.nextId ∧ t.created_at < s.clock) ∧
  s.tasks.Pairwise (fun a b => a.created_at < b.created_at)

instance (s : Store) : Decidable s.Wf :=
  inferInstanceAs (Decidable (_ ∧ _))

example : (apiCreateTask emptyStore "A").1 =
    .ok { id := 1, text := "A", done := false, created_at := 0 } := rfl

example : get_tasks (apiCreateTask emptyStore "A").2 =
    [{ id := 1, text := "A", done := false, created_at := 0 }] := rfl

/-- Rows that survive `delete_completed_tasks` are exactly the not-done
ones, so a second pass over them finds no done row. -/
lemma filter_done_filter_not_done (l : List Task) :
    (l.filter (fun t => !t.done)).filter (fun t => t.done) = [] := by
  induction l with
  | nil => rfl
  | cons a l ih => cases ha : a.done <;> simp [List.filter_cons, ha, ih]

/-- C1: the spec says create/update-text validation accepts exactly the
strings whose length after trimming surrounding whitespace is between 1
and 255, and in particular that an all-whitespace text fails.  The code
is a slip: it writes `strip_whitespace=True` inside `Field(...)`, but
Pydantic v2 ignores that keyword there, so no trimming happens and the
all-whitespace text `" "` is accepted (its raw length, 1, is within
bounds) although its trimmed length is 0.  The remaining boundary cases
of the claim do hold on the raw length: length 0 and length 256 fail,
length 1 and length 255 succeed. -/
theorem C1_strip_whitespace_ineffective :
    validateText " " = .ok " " ∧
    ¬ specAcceptsText " " ∧
    validateText "" = .error .tooShort ∧
    validateText (String.mk (List.replicate 256 'a')) = .error .tooLong ∧
    validateText "a" = .ok "a" ∧
    validateText (String.mk (List.replicate 255 'a')) =
      .ok (String.mk (List.replicate 255 'a')) := by
  refine ⟨rfl, by decide, rfl, rfl, rfl, rfl⟩

/-- C5: `delete_completed_tasks` removes exactly the rows with
`done == true` and returns their count (`0` when there is none); run
twice in a row it therefore returns the number of done rows and then
`0`. -/
theorem C5_delete_completed_exact (s : Store) :
    (delete_completed_tasks s).1 = (s.tasks.filter (fun t => t.done)).length ∧
    (delete_completed_tasks s).2.tasks = s.tasks.filter (fun t => !t.done) ∧
    (delete_completed_tasks (delete_completed_tasks s).2).1 = 0 := by
  refine ⟨rfl, rfl, ?_⟩
  simp [delete_completed_tasks, filter_done_filter_not_done]

/-- C10: without explicit query parameters `read_tasks`/`get_tasks`
default to `skip = 0`, `limit = 10`, so a parameterless listing returns
at most 10 rows, and exactly 10 when more than 10 are stored. -/
theorem C10_list_defaults (s : Store) :
    apiReadTasks s = (.ok (get_tasks s 0 10), s) ∧
    (get_tasks s).length ≤ 10 ∧
    (10 < s.tasks.length → (get_tasks s).length = 10) := by
  refine ⟨rfl, ?_, ?_⟩
  · simp [get_tasks, List.length_take]
  · intro h
    simp [get_tasks, List.length_take]
    omega

/-- The store after the C7 scenario's four creations: tasks `A`, `B`,
`C`, `D` created in this order from an empty store. -/
def scenarioAfterCreates : Store :=
  (apiCreateTask (apiCreateTask (apiCreateTask
    (apiCreateTask emptyStore "A").2 "B").2 "C").2 "D").2

/-- The C7 scenario store after marking `B` (id 2) and `D` (id 4)
done. -/
def scenarioAfterMarks : Store :=
  (apiUpdateTaskStatus (apiUpdateTaskStatus scenarioAfterCreates 2 true).2 4 true).2

/-- C7: from an empty store, create `A`, `B`, `C`, `D` in order, mark
`B` and `D` done; then `deleteCompletedTasks` returns 2 and the
subsequent listing is exactly `[C, A]` (newest first). -/
theorem C7_scenario_bulk_delete_then_list :
    scenarioAfterMarks.tasks =
      [{ id := 1, text := "A", done := false, created_at := 0 },
       { id := 2, text := "B", done := true, created_at := 1 },
       { id := 3, text := "C", done := false, created_at := 2 },
       { id := 4, text := "D", done := true, created_at := 3 }] ∧
    (apiDeleteCompletedTasks scenarioAfterMarks).1 = .ok 2 ∧
    get_tasks (apiDeleteCompletedTasks scenarioAfterMarks).2 =
      [{ id := 3, text := "C", done := false, created_at := 2 },
       { id := 1, text := "A", done := false, created_at := 0 }] :=
  ⟨rfl, rfl, rfl⟩

/-- A primary key matched by no row makes `get_task` return `None`. -/
lemma get_task_eq_none (s : Store) (task_id : Nat)
    (h : ∀ t ∈ s.tasks, t.id ≠ task_id) : get_task s task_id = none := by
  simp only [get_task, List.find?_eq_none]
  intro t ht
  simpa using h t ht

/-- C2: on an id matching no stored task, each of get, update-status,
update-text and delete signals NotFound, surfaced as 404 "Task not
found", and leaves the store exactly as it was — no crash, no silent
no-op, no default task. -/
theorem C2_not_found_uniform (s : Store) (task_id : Nat)
    (habs : ∀ t ∈ s.tasks, t.id ≠ task_id) (text : String) (d : Bool)
    (hval : validateText text = .ok text) :
    apiReadTask s task_id = (.error (.notFound "Task not found"), s) ∧
    apiUpdateTaskStatus s task_id d = (.error (.notFound "Task not found"), s) ∧
    apiUpdateTaskText s task_id text = (.error (.notFound "Task not found"), s) ∧
    apiDeleteTask s task_id = (.error (.notFound "Task not found"), s) := by
  have hnone := get_task_eq_none s task_id habs
  refine ⟨?_, ?_, ?_, ?_⟩ <;>
    simp [apiReadTask, apiUpdateTaskStatus, apiUpdateTaskText, apiDeleteTask,
      update_task_status, update_task_text, delete_task, hnone, hval]

/-- A store holding the single task `A` (id 1), used to instantiate
the hypothetical theorems on concrete data. -/
def oneTaskStore : Store := (create_task emptyStore "A").2

/-- Witness for C2 at the concrete one-task store and the absent
id 99. -/
theorem C2_witness :
    apiReadTask oneTaskStore 99 = (.error (.notFound "Task not found"), oneTaskStore) ∧
    apiUpdateTaskStatus oneTaskStore 99 true =
      (.error (.notFound "Task not found"), oneTaskStore) ∧
    apiUpdateTaskText oneTaskStore 99 "x" =
      (.error (.notFound "Task not found"), oneTaskStore) ∧
    apiDeleteTask oneTaskStore 99 = (.error (.notFound "Task not found"), oneTaskStore) :=
  C2_not_found_uniform oneTaskStore 99 (by decide) "x" true rfl

/-- C6: whenever a create, update or delete request fails (validation
failure or NotFound), the store is returned exactly as it was: no row
inserted, modified or removed. -/
theorem C6_failed_ops_leave_store (s : Store) (task_id : Nat) (text : String) (d : Bool) :
    ((apiCreateTask s text).1.isOk = false → (apiCreateTask s text).2 = s) ∧
    ((apiUpdateTaskStatus s task_id d).1.isOk = false →
      (apiUpdateTaskStatus s task_id d).2 = s) ∧
    ((apiUpdateTaskText s task_id text).1.isOk = false →
      (apiUpdateTaskText s task_id text).2 = s) ∧
    ((apiDeleteTask s task_id).1.isOk = false → (apiDeleteTask s task_id).2 = s) := by
  refine ⟨?_, ?_, ?_, ?_⟩
  · cases hv : validateText text <;>
      simp [apiCreateTask, hv, Except.isOk, Except.toBool]
  · cases hg : get_task s task_id <;>
      simp [apiUpdateTaskStatus, update_task_status, hg, Except.isOk, Except.toBool]
  · cases hv : validateText text
    · simp [apiUpdateTaskText, hv, Except.isOk, Except.toBool]
    · cases hg : get_task s task_id <;>
        simp [apiUpdateTaskText, update_task_text, hv, hg, Except.isOk, Except.toBool]
  · cases hg : get_task s task_id <;>
      simp [apiDeleteTask, delete_task, hg, Except.isOk, Except.toBool]

/-- Witness for C6: the failing create (empty text) and the failing
update/delete (absent id 99) on the one-task store leave it intact. -/
theorem C6_witness :
    (apiCreateTask oneTaskStore "").2 = oneTaskStore ∧
    (apiUpdateTaskStatus oneTaskStore 99 true).2 = oneTaskStore ∧
    (apiUpdateTaskText oneTaskStore 99 "x").2 = oneTaskStore ∧
    (apiDeleteTask oneTaskStore 99).2 = oneTaskStore :=
  ⟨(C6_failed_ops_leave_store oneTaskStore 99 "" true).1 rfl,
   (C6_failed_ops_leave_store oneTaskStore 99 "x" true).2.1 rfl,
   (C6_failed_ops_leave_store oneTaskStore 99 "x" true).2.2.1 rfl,
   (C6_failed_ops_leave_store oneTaskStore 99 "x" true).2.2.2 rfl⟩

/-- Inserting a task older than every element of a descending list
puts it at the end. -/
lemma orderedInsert_eq_append (x : Task) (l : List Task)
    (h : ∀ b ∈ l, x.created_at < b.created_at) :
    l.orderedInsert createdDesc x = l ++ [x] := by
  induction l with
  | nil => rfl
  | cons b bs ih =>
    have hb : ¬ createdDesc x b := by
      have := h b (List.mem_cons_self b bs)
      simp only [createdDesc]
      omega
    simp only [List.orderedInsert, if_neg hb, List.cons_append, List.cons.injEq, true_and]
    exact ih (fun c hc => h c (List.mem_cons_of_mem b hc))

/-- On rows stored in creation order with strictly increasing
timestamps, sorting by `created_at` descending is exactly list
reversal. -/
lemma insertionSort_eq_reverse (l : List Task)
    (h : l.Pairwise (fun a b => a.created_at < b.created_at)) :
    l.insertionSort createdDesc = l.reverse := by
  induction l with
  | nil => rfl
  | cons x xs ih =>
    obtain ⟨hx, hxs⟩ := List.pairwise_cons.1 h
    rw [List.insertionSort, ih hxs,
      orderedInsert_eq_append x xs.reverse (fun b hb => hx b (List.mem_reverse.1 hb)),
      List.reverse_cons]

/-- C3 (amended): on a well-formed store the listing is the stored
rows newest first, minus the first `skip`, capped at `limit` rows; it
is strictly descending in `created_at`; and with `skip = 0` it is
exactly the `limit` most recent rows (the final `limit`-prefix of the
reversed creation order). -/
theorem C3_list_sorted_desc (s : Store) (hwf : s.Wf) (skip limit : Nat) :
    get_tasks s skip limit = ((s.tasks.reverse).drop skip).take limit ∧
    (get_tasks s skip limit).Pairwise (fun a b => b.created_at < a.created_at) ∧
    (get_tasks s skip limit).length ≤ limit ∧
    get_tasks s 0 limit = s.tasks.reverse.take limit := by
  have hrev := insertionSort_eq_reverse s.tasks hwf.2
  refine ⟨by simp [get_tasks, hrev], ?_, ?_, by simp [get_tasks, hrev]⟩
  · simp only [get_tasks, hrev]
    have hp : s.tasks.reverse.Pairwise (fun a b => b.created_at < a.created_at) :=
      List.pairwise_reverse.2 hwf.2
    exact List.Pairwise.sublist
      ((List.take_sublist _ _).trans (List.drop_sublist _ _)) hp
  · simp only [get_tasks]
    simp [List.length_take]

/-- The store holding exactly the tasks `A` then `B`, created in that
order. -/
def c3Store : Store := (create_task (create_task emptyStore "A").2 "B").2

/-- C3 counterexample to the claim as stated: after inserting N = 2
tasks, listing with `limit = 1 < N` returns a single task, so it does
not return the N most recent tasks. -/
theorem C3_counterexample :
    c3Store.tasks.length = 2 ∧
    (get_tasks c3Store 0 1).length = 1 ∧
    get_tasks c3Store 0 1 ≠
      [{ id := 2, text := "B", done := false, created_at := 1 },
       { id := 1, text := "A", done := false, created_at := 0 }] :=
  ⟨rfl, rfl, by decide⟩

/-- Witness for C3 (amended) on the concrete two-task store with
`skip = 1`, `limit = 5`. -/
theorem C3_witness :
    get_tasks c3Store 1 5 = ((c3Store.tasks.reverse).drop 1).take 5 ∧
    (get_tasks c3Store 1 5).Pairwise (fun a b => b.created_at < a.created_at) ∧
    (get_tasks c3Store 1 5).length ≤ 5 ∧
    get_tasks c3Store 0 5 = c3Store.tasks.reverse.take 5 :=
  C3_list_sorted_desc c3Store (by decide) 1 5

/-- Successful validation passes the text through unchanged. -/
lemma validateText_ok_eq (text v : String) (h : validateText text = .ok v) :
    v = text := by
  unfold validateText at h
  split at h
  · cases h
  · split at h
    · cases h
    · injection h with h2
      exact h2.symm

/-- Appending a row whose primary key occurs nowhere in the list makes
the key lookup find exactly that row. -/
lemma find?_append_fresh (l : List Task) (t : Task) (h : ∀ u ∈ l, u.id ≠ t.id) :
    (l ++ [t]).find? (fun u => u.id == t.id) = some t := by
  induction l with
  | nil => simp [List.find?]
  | cons u us ih =>
    have hu : (u.id == t.id) = false := by
      simpa using h u (List.mem_cons_self u us)
    simp only [List.cons_append, List.find?, hu]
    exact ih (fun v hv => h v (List.mem_cons_of_mem u hv))

/-- C4: creating a task from a valid text and then getting the
returned id yields that very task — same text, `done = false`, and a
`created_at` no earlier than the clock at the moment of the create
call. -/
theorem C4_create_then_get (s : Store) (hwf : s.Wf) (text : String) (t : Task)
    (s2 : Store) (h : apiCreateTask s text = (.ok t, s2)) :
    apiReadTask s2 t.id = (.ok t, s2) ∧
    t.text = text ∧ t.done = false ∧ s.clock ≤ t.created_at := by
  unfold apiCreateTask at h
  cases hv : validateText text with
  | error e => rw [hv] at h; cases h
  | ok v =>
    rw [hv] at h
    have hvt := validateText_ok_eq text v hv
    subst hvt
    injection h with h1 h2
    injection h1 with h1
    subst h1
    subst h2
    refine ⟨?_, rfl, rfl, Nat.le_refl _⟩
    have hfresh : ∀ u ∈ s.tasks, u.id ≠ s.nextId :=
      fun u hu => Nat.ne_of_lt ((hwf.1 u hu).1)
    have hfind := find?_append_fresh s.tasks
      { id := s.nextId, text := v, done := false, created_at := s.clock } hfresh
    have hfind2 : List.find? (fun u => u.id == s.nextId)
        (s.tasks ++ [{ id := s.nextId, text := v, done := false, created_at := s.clock }]) =
        some { id := s.nextId, text := v, done := false, created_at := s.clock } := by
      simpa using hfind
    simp only [apiReadTask, get_task, create_task, hfind2]

/-- Witness for C4: creating `"A"` in the empty store and reading it
back. -/
theorem C4_witness :
    apiReadTask oneTaskStore 1 =
      (.ok { id := 1, text := "A", done := false, created_at := 0 }, oneTaskStore) ∧
    "A" = "A" ∧ false = false ∧ emptyStore.clock ≤ 0 :=
  C4_create_then_get emptyStore (by decide) "A"
    { id := 1, text := "A", done := false, created_at := 0 } oneTaskStore rfl

/-- Replacing the first match of a row-lookup relates the old and new
row lists pointwise: the replaced row is related by `R` to its
replacement, every other row to itself. -/
lemma forall2_replaceFirst (p : Task → Bool) (t2 : Task) (R : Task → Task → Prop)
    (hrefl : ∀ u, R u u) (l : List Task) :
    ∀ t, l.find? p = some t → R t t2 → List.Forall₂ R l (replaceFirst p t2 l) := by
  induction l with
  | nil => intro t hfind _; cases hfind
  | cons u us ih =>
    intro t hfind hrep
    cases hp : p u with
    | true =>
      have hut : u = t := by simpa [List.find?, hp] using hfind
      subst hut
      simp only [replaceFirst, hp, if_pos]
      exact List.Forall₂.cons hrep (List.forall₂_same.2 fun x _ => hrefl x)
    | false =>
      have hfind2 : us.find? p = some t := by simpa [List.find?, hp] using hfind
      simp only [replaceFirst, hp, Bool.false_eq_true, if_false]
      exact List.Forall₂.cons (hrefl u) (ih t hfind2 hrep)

/-- The replacement row is a member of the updated list whenever the
lookup found a row to replace. -/
lemma mem_replaceFirst (p : Task → Bool) (t2 : Task) (l : List Task) :
    ∀ t, l.find? p = some t → t2 ∈ replaceFirst p t2 l := by
  induction l with
  | nil => intro t hfind; cases hfind
  | cons u us ih =>
    intro t hfind
    cases hp : p u with
    | true =>
      simp [replaceFirst, hp]
    | false =>
      have hfind2 : us.find? p = some t := by simpa [List.find?, hp] using hfind
      simp only [replaceFirst, hp, Bool.false_eq_true, if_false]
      exact List.mem_cons_of_mem u (ih t hfind2)

/-- C8: on an existing id, the status update changes only the `done`
field of that row — its `id`, `text` and `created_at`, and every other
row, stay exactly as they were — and the text update changes only the
`text` field of that row, preserving its `id`, `done` and `created_at`
and every other row. -/
theorem C8_updates_touch_only_their_field (s : Store) (task_id : Nat) (d : Bool)
    (newText : String) (t : Task) (h : get_task s task_id = some t) :
    (update_task_status s task_id d).1 = some { t with done := d } ∧
    List.Forall₂ (fun u v => v.id = u.id ∧ v.text = u.text ∧ v.created_at = u.created_at ∧
      (u.id ≠ task_id → v = u)) s.tasks (update_task_status s task_id d).2.tasks ∧
    (update_task_text s task_id newText).1 = some { t with text := newText } ∧
    List.Forall₂ (fun u v => v.id = u.id ∧ v.done = u.done ∧ v.created_at = u.created_at ∧
      (u.id ≠ task_id → v = u)) s.tasks (update_task_text s task_id newText).2.tasks := by
  have hfind : s.tasks.find? (fun u => u.id == task_id) = some t := h
  have hid : t.id = task_id := by simpa using List.find?_some hfind
  refine ⟨?_, ?_, ?_, ?_⟩
  · simp [update_task_status, h]
  · have h2 : (update_task_status s task_id d).2.tasks =
        replaceFirst (fun u => u.id == task_id) { t with done := d } s.tasks := by
      simp [update_task_status, h]
    rw [h2]
    exact forall2_replaceFirst _ _ _ (fun u => ⟨rfl, rfl, rfl, fun _ => rfl⟩) s.tasks t hfind
      ⟨rfl, rfl, rfl, fun hne => absurd hid hne⟩
  · simp [update_task_text, h]
  · have h2 : (update_task_text s task_id newText).2.tasks =
        replaceFirst (fun u => u.id == task_id) { t with text := newText } s.tasks := by
      simp [update_task_text, h]
    rw [h2]
    exact forall2_replaceFirst _ _ _ (fun u => ⟨rfl, rfl, rfl, fun _ => rfl⟩) s.tasks t hfind
      ⟨rfl, rfl, rfl, fun hne => absurd hid hne⟩

/-- The store holding the tasks `A` (id 1) then `B` (id 2). -/
def twoTaskStore : Store := (create_task oneTaskStore "B").2

/-- Witness for C8: updating task 1 of the concrete two-task store. -/
theorem C8_witness :
    (update_task_status twoTaskStore 1 true).1 =
      some { id := 1, text := "A", done := true, created_at := 0 } ∧
    List.Forall₂ (fun u v => v.id = u.id ∧ v.text = u.text ∧ v.created_at = u.created_at ∧
      (u.id ≠ 1 → v = u)) twoTaskStore.tasks (update_task_status twoTaskStore 1 true).2.tasks ∧
    (update_task_text twoTaskStore 1 "z").1 =
      some { id := 1, text := "z", done := false, created_at := 0 } ∧
    List.Forall₂ (fun u v => v.id = u.id ∧ v.done = u.done ∧ v.created_at = u.created_at ∧
      (u.id ≠ 1 → v = u)) twoTaskStore.tasks (update_task_text twoTaskStore 1 "z").2.tasks :=
  C8_updates_touch_only_their_field twoTaskStore 1 true "z"
    { id := 1, text := "A", done := false, created_at := 0 } rfl

/-- C9: a successful create or update-text persists the client text
character for character — no trimming before storage. -/
theorem C9_text_stored_verbatim (s : Store) (text : String) (t : Task) (s2 : Store)
    (hc : apiCreateTask s text = (.ok t, s2))
    (task_id : Nat) (u : Task) (s3 : Store)
    (hu : apiUpdateTaskText s task_id text = (.ok u, s3)) :
    t.text = text ∧ t ∈ s2.tasks ∧ u.text = text ∧ u ∈ s3.tasks := by
  unfold apiCreateTask at hc
  unfold apiUpdateTaskText at hu
  cases hv : validateText text with
  | error e => rw [hv] at hc; cases hc
  | ok v =>
    rw [hv] at hc hu
    have hvt := validateText_ok_eq text v hv
    subst hvt
    injection hc with hc1 hc2
    injection hc1 with hc1
    subst hc1
    subst hc2
    refine ⟨rfl, by simp [create_task], ?_⟩
    cases hg : get_task s task_id with
    | none => simp [update_task_text, hg] at hu
    | some t0 =>
      have hfind : s.tasks.find? (fun x => x.id == task_id) = some t0 := hg
      simp only [update_task_text, hg, Prod.mk.injEq, Except.ok.injEq] at hu
      obtain ⟨hu1, hu2⟩ := hu
      subst hu1
      subst hu2
      exact ⟨rfl, mem_replaceFirst _ _ s.tasks t0 hfind⟩

/-- Witness for C9: creating the untrimmed text `"  hi  "` and
updating task 1's text to `"  hi  "`, both on the one-task store. -/
theorem C9_witness :
    Task.text { id := 2, text := "  hi  ", done := false, created_at := 1 } = "  hi  " ∧
    ({ id := 2, text := "  hi  ", done := false, created_at := 1 } : Task) ∈
      Store.tasks (apiCreateTask oneTaskStore "  hi  ").2 ∧
    Task.text { id := 1, text := "  hi  ", done := false, created_at := 0 } = "  hi  " ∧
    ({ id := 1, text := "  hi  ", done := false, created_at := 0 } : Task) ∈
      Store.tasks (apiUpdateTaskText oneTaskStore 1 "  hi  ").2 :=
  C9_text_stored_verbatim oneTaskStore "  hi  "
    { id := 2, text := "  hi  ", done := false, created_at := 1 }
    (apiCreateTask oneTaskStore "  hi  ").2 rfl 1
    { id := 1, text := "  hi  ", done := false, created_at := 0 }
    (apiUpdateTaskText oneTaskStore 1 "  hi  ").2 rfl

/-- The two-task store with task 2 (`B`) marked done. -/
def mixedStore : Store := (update_task_status twoTaskStore 2 true).2

/-- Witness for C5 on the concrete store where `B` is done and `A` is
not. -/
theorem C5_witness :
    (delete_completed_tasks mixedStore).1 =
      (mixedStore.tasks.filter (fun t => t.done)).length ∧
    (delete_completed_tasks mixedStore).2.tasks =
      mixedStore.tasks.filter (fun t => !t.done) ∧
    (delete_completed_tasks (delete_completed_tasks mixedStore).2).1 = 0 :=
  C5_delete_completed_exact mixedStore

/-- A store filled by eleven consecutive creations. -/
def elevenTaskStore : Store :=
  List.foldl (fun s _ => (create_task s "t").2) emptyStore (List.range 11)

/-- Witness for C10 on a concrete store of 11 tasks: the parameterless
listing returns exactly 10 of them. -/
theorem C10_witness :
    apiReadTasks elevenTaskStore = (.ok (get_tasks elevenTaskStore 0 10), elevenTaskStore) ∧
    (get_tasks elevenTaskStore).length ≤ 10 ∧
    (get_tasks elevenTaskStore).length = 10 :=
  ⟨(C10_list_defaults elevenTaskStore).1,
   (C10_list_defaults elevenTaskStore).2.1,
   (C10_list_defaults elevenTaskStore).2.2 (by decide)⟩

/-- Every element of the replaced list is an old element or the
replacement. -/
lemma mem_replaceFirst_or (p : Task → Bool) (t2 : Task) (l : List Task) :
    ∀ u ∈ replaceFirst p t2 l, u ∈ l ∨ u = t2 := by
  induction l with
  | nil => intro u hu; cases hu
  | cons a as ih =>
    intro u hu
    cases hp : p a with
    | true =>
      simp only [replaceFirst, hp, if_pos, List.mem_cons] at hu
      rcases hu with hu | hu
      · exact Or.inr hu
      · exact Or.inl (List.mem_cons_of_mem a hu)
    | false =>
      simp only [replaceFirst, hp, Bool.false_eq_true, if_false, List.mem_cons] at hu
      rcases hu with hu | hu
      · exact Or.inl (hu ▸ List.mem_cons_self a as)
      · rcases ih u hu with h1 | h1
        · exact Or.inl (List.mem_cons_of_mem a h1)
        · exact Or.inr h1

/-- Replacing the first match by a row with the same `created_at`
keeps the strict chronological ordering of the list. -/
lemma pairwise_created_replaceFirst (p : Task → Bool) (t2 : Task) :
    ∀ (l : List Task) (t : Task), l.find? p = some t →
    t2.created_at = t.created_at →
    l.Pairwise (fun a b => a.created_at < b.created_at) →
    (replaceFirst p t2 l).Pairwise (fun a b => a.created_at < b.created_at) := by
  intro l
  induction l with
  | nil => intro t hfind; cases hfind
  | cons a as ih =>
    intro t hfind heq h
    obtain ⟨ha, has⟩ := List.pairwise_cons.1 h
    by_cases hp : p a = true
    · have hat : a = t := by simpa [List.find?, hp] using hfind
      subst hat
      simp only [replaceFirst, hp, if_pos]
      refine List.pairwise_cons.2 ⟨?_, has⟩
      intro b hb
      rw [heq]
      exact ha b hb
    · have hfind2 : as.find? p = some t := by
        have hp2 : p a = false := by simpa using hp
        simpa [List.find?, hp2] using hfind
      simp only [replaceFirst, hp, if_neg]
      refine List.pairwise_cons.2 ⟨?_, ih t hfind2 heq has⟩
      intro b hb
      rcases mem_replaceFirst_or p t2 as b hb with h1 | h1
      · exact ha b h1
      · rw [h1, heq]
        exact ha t (List.mem_of_find?_eq_some hfind2)

/-- Creation preserves well-formedness: the new row gets a fresh key
and the newest timestamp. -/
lemma wf_create (s : Store) (h : s.Wf) (text : String) : (create_task s text).2.Wf := by
  obtain ⟨hb, hp⟩ := h
  constructor
  · intro t ht
    simp only [create_task, List.mem_append, List.mem_singleton] at ht
    rcases ht with ht | ht
    · obtain ⟨h1, h2⟩ := hb t ht
      refine ⟨?_, ?_⟩ <;> simp only [create_task] <;> omega
    · subst ht
      refine ⟨?_, ?_⟩ <;> simp [create_task]
  · apply List.pairwise_append.2
    refine ⟨hp, List.pairwise_singleton _ _, ?_⟩
    intro a ha b hb2
    rw [List.mem_singleton] at hb2
    subst hb2
    exact (hb a ha).2

/-- A store whose row list shrank to a sublist (single or bulk delete)
stays well-formed. -/
lemma wf_of_sublist (s : Store) (h : s.Wf) (l : List Task) (hsub : l.Sublist s.tasks) :
    Store.Wf { tasks := l, nextId := s.nextId, clock := s.clock } := by
  exact ⟨fun t ht => h.1 t (hsub.subset ht), h.2.sublist hsub⟩

/-- Both updates preserve well-formedness: the replaced row keeps its
key and timestamp. -/
lemma wf_update (s : Store) (h : s.Wf) (task_id : Nat) (t t2 : Task)
    (hfind : s.tasks.find? (fun u => u.id == task_id) = some t)
    (hid : t2.id = t.id) (hca : t2.created_at = t.created_at) :
    Store.Wf { tasks := replaceFirst (fun u => u.id == task_id) t2 s.tasks,
               nextId := s.nextId, clock := s.clock } := by
  constructor
  · intro u hu
    rcases mem_replaceFirst_or _ _ _ u hu with h1 | h1
    · exact h.1 u h1
    · subst h1
      have ht := h.1 t (List.mem_of_find?_eq_some hfind)
      exact ⟨by simpa [hid] using ht.1, by simpa [hca] using ht.2⟩
  · exact pairwise_created_replaceFirst _ _ s.tasks t hfind hca h.2

/-- The stores reachable from a fresh database through the CRUD
operations. -/
inductive Reachable : Store → Prop where
  | empty : Reachable emptyStore
  | create (s : Store) (text : String) : Reachable s → Reachable (create_task s text).2
  | del (s : Store) (task_id : Nat) : Reachable s → Reachable (delete_task s task_id).2
  | delCompleted (s : Store) : Reachable s → Reachable (delete_completed_tasks s).2
  | updStatus (s : Store) (task_id : Nat) (d : Bool) :
      Reachable s → Reachable (update_task_status s task_id d).2
  | updText (s : Store) (task_id : Nat) (text : String) :
      Reachable s → Reachable (update_task_text s task_id text).2

/-- Every store the service can actually produce is well-formed, so
the `Store.Wf` hypotheses above hold of all reachable states. -/
theorem wf_of_reachable (s : Store) (h : Reachable s) : s.Wf := by
  induction h with
  | empty => decide
  | create s text _ ih => exact wf_create s ih text
  | del s task_id _ ih =>
    cases hg : get_task s task_id with
    | none => simpa [delete_task, hg] using ih
    | some t =>
      simp only [delete_task, hg]
      exact wf_of_sublist s ih _ (List.eraseP_sublist s.tasks)
  | delCompleted s _ ih =>
    exact wf_of_sublist s ih _ (List.filter_sublist s.tasks)
  | updStatus s task_id d _ ih =>
    cases hg : get_task s task_id with
    | none => simpa [update_task_status, hg] using ih
    | some t =>
      simp only [update_task_status, hg]
      exact wf_update s ih task_id t _ hg rfl rfl
  | updText s task_id text _ ih =>
    cases hg : get_task s task_id with
    | none => simpa [update_task_text, hg] using ih
    | some t =>
      simp only [update_task_text, hg]
      exact wf_update s ih task_id t _ hg rfl rfl

end TodoApp

